import Mathlib

/-!
Shallow embedding of the LEDMatrix Live Olympic Medal Count plugin
(`src/manager.py`, class `LiveOlympicMedalCountPlugin`).

The plugin is single threaded glue code: a timed data refresh
(`update`), a placeholder data fetch (`fetch_data`), view filtering
(`_get_countries_for_view`), a flag image memo cache (`_get_flag`),
config handling (`on_config_change`, `validate_config`) and a guarded
render loop (`display`).  Times are wall clock floats in Python; they
are modelled as rationals.  Images are modelled by their pixel
dimensions only: none of the verified claims depends on pixel
contents.  Host collaborators (display manager, scroll helper, HTTP
layer) are supplied by the surrounding application and are modelled as
explicit environment parameters whose operations may fail.
-/

namespace MedalCount

/-- Country record as returned by the data source, mirroring the dict
`{id, name, gold_medals, silver_medals, bronze_medals, total_medals, flag_url}`
used throughout `manager.py`.  An absent `flag_url` is modelled by the
empty string, which is exactly what the `if not flag_url` test in
`_get_flag` treats as missing. -/
structure Country where
  id : String
  name : String
  gold_medals : Nat
  silver_medals : Nat
  bronze_medals : Nat
  total_medals : Nat
  flag_url : String
deriving DecidableEq, Repr

/-- The module level `PLACEHOLDER_COUNTRIES` list of `manager.py`:
ten countries, all medal counts zero. -/
def PLACEHOLDER_COUNTRIES : List Country :=
  [ ⟨"NOR", "Norway", 0, 0, 0, 0, "https://flagcdn.com/w80/no.png"⟩,
    ⟨"GER", "Germany", 0, 0, 0, 0, "https://flagcdn.com/w80/de.png"⟩,
    ⟨"USA", "United States", 0, 0, 0, 0, "https://flagcdn.com/w80/us.png"⟩,
    ⟨"CAN", "Canada", 0, 0, 0, 0, "https://flagcdn.com/w80/ca.png"⟩,
    ⟨"SWE", "Sweden", 0, 0, 0, 0, "https://flagcdn.com/w80/se.png"⟩,
    ⟨"SUI", "Switzerland", 0, 0, 0, 0, "https://flagcdn.com/w80/ch.png"⟩,
    ⟨"AUT", "Austria", 0, 0, 0, 0, "https://flagcdn.com/w80/at.png"⟩,
    ⟨"ITA", "Italy", 0, 0, 0, 0, "https://flagcdn.com/w80/it.png"⟩,
    ⟨"FRA", "France", 0, 0, 0, 0, "https://flagcdn.com/w80/fr.png"⟩,
    ⟨"NED", "Netherlands", 0, 0, 0, 0, "https://flagcdn.com/w80/nl.png"⟩ ]

/-- Flag dimensions `FLAG_WIDTH` and `FLAG_HEIGHT` from `manager.py`. -/
def FLAG_WIDTH : Nat := 36

def FLAG_HEIGHT : Nat := 24

/-- Python `str.upper()` as used on country ids: uppercase every
character. -/
def upper (s : String) : String := ⟨s.data.map Char.toUpper⟩

/-- Boolean comparison realising the Python call
`data.sort(key=lambda c: (c.get("gold_medals", 0), c.get("total_medals", 0)), reverse=True)`:
`a` may stay before `b` exactly when the key of `b` is lexicographically
at most the key of `a`.  A stable sort with this relation is descending
by `(gold_medals, total_medals)` and keeps the original order of
records whose keys tie, which is the documented semantics of CPython
`list.sort` with `reverse=True`. -/
def medalKeyGE (a b : Country) : Bool :=
  b.gold_medals < a.gold_medals ||
    (a.gold_medals == b.gold_medals && b.total_medals ≤ a.total_medals)

/-- The in place `data.sort(...)` of `fetch_data`, as a stable merge sort
with the descending medal key comparison. -/
def sortByMedals (data : List Country) : List Country :=
  data.mergeSort medalKeyGE

/-- Method `fetch_data` of `manager.py` (lines 208 to 234), parametrised by
the data source list.  In the source the list is always the constant
`PLACEHOLDER_COUNTRIES` (ESPN scraping is a TODO); the parameter stands
for that constant and lets the sorting be verified for every input.
The body copies the source, sorts it descending by
`(gold_medals, total_medals)`, and truncates to `top_n` unless the view
mode is `usa_only`, in which case all data is kept so USA can be found
regardless of rank.  There is no network request, no exception source
and no cache access in this method. -/
def fetch_data (view_mode : String) (top_n : Nat) (source : List Country) :
    List Country :=
  let data := sortByMedals source
  if view_mode == "usa_only" then data else data.take top_n

/-- Host owned TTL cache as seen by this plugin: at most one stored
medal data list.  `manager.py` never touches it, but claim C2 speaks
about it, so it is part of the system state. -/
structure HostCache where
  medalData : Option (List Country)
deriving DecidableEq, Repr

/-- System level view of one `fetch_data` call: result paired with the
host cache after the call.  The body of `fetch_data` in `manager.py`
contains no reference to `self.cache_manager`, so the cache passes
through unchanged. -/
def fetch_data_system (view_mode : String) (top_n : Nat) (cache : HostCache) :
    List Country × HostCache :=
  (fetch_data view_mode top_n PLACEHOLDER_COUNTRIES, cache)

/-- Method `_get_countries_for_view` (lines 273 to 280): in `usa_only`
mode, the first record whose upper cased id is `USA` as a singleton
list (or the empty list when none exists); otherwise the first `top_n`
records. -/
def get_countries_for_view (view_mode : String) (top_n : Nat)
    (countries : List Country) : List Country :=
  if view_mode == "usa_only" then
    match countries.find? (fun c => upper c.id == "USA") with
    | some c => [c]
    | none => []
  else
    countries.take top_n

/-- Data facing state of the plugin: the configuration fields read by
`update`, `fetch_data` and `_get_countries_for_view`, plus the mutable
data state `self.countries`, `self.last_fetch_time` and
`self.needs_initial_render`.  Scroll timing knobs live in the external
`ScrollHelper` and are not part of any verified claim. -/
structure PluginState where
  view_mode : String
  top_n : Nat
  update_interval : ℚ
  countries : List Country
  last_fetch_time : ℚ
  needs_initial_render : Bool
deriving DecidableEq, Repr

/-- Initial data state established by `__init__` for a given
configuration: no countries, `last_fetch_time = 0.0`,
`needs_initial_render = True`. -/
def initState (view_mode : String) (top_n : Nat) (update_interval : ℚ) :
    PluginState :=
  ⟨view_mode, top_n, update_interval, [], 0, true⟩

/-- Method `update` (lines 392 to 400) at wall clock time `now`.
Returns the new state together with whether a fetch was performed.
The condition is literally
`now - self.last_fetch_time >= self.update_interval or not self.countries`;
on fetch, the countries are replaced by the fetch result,
`last_fetch_time` is set to `now`, and the scroll content is re
rendered (`needs_initial_render` becomes false).  Otherwise nothing
changes. -/
def update (now : ℚ) (s : PluginState) : PluginState × Bool :=
  if s.update_interval ≤ now - s.last_fetch_time ∨ s.countries = [] then
    ({ s with
        countries := fetch_data s.view_mode s.top_n PLACEHOLDER_COUNTRIES,
        last_fetch_time := now,
        needs_initial_render := false }, true)
  else
    (s, false)

/-- Configuration mapping slice read by this plugin: the nested
`display_options.view_mode` and the two `data_settings` entries the
claims mention.  `none` models an absent key, and each `getD` below is
the corresponding `.get(key, default)` in the source. -/
structure Config where
  view_mode : Option String
  update_interval : Option ℚ
  top_n_countries : Option Nat
deriving DecidableEq, Repr

/-- Method `on_config_change` (lines 481 to 502): re-reads the
configuration fields with their defaults and forces a fresh fetch plus
re-render by resetting `self.last_fetch_time = 0.0`.  The scroll knob
updates go to the external helper and have no data facing effect. -/
def on_config_change (cfg : Config) (s : PluginState) : PluginState :=
  { s with
      view_mode := cfg.view_mode.getD "top5",
      update_interval := cfg.update_interval.getD 300,
      top_n := cfg.top_n_countries.getD 5,
      last_fetch_time := 0 }

/-- Method `validate_config` (lines 504 to 514).  The base class
validation is host code outside this repository; its verdict is the
parameter `base_ok`.  After the base check the method rejects exactly
the view modes outside `("top5", "usa_only")`, reading the view mode
with default `top5`. -/
def validate_config (base_ok : Bool) (cfg : Config) : Bool :=
  if !base_ok then
    false
  else
    let view_mode := cfg.view_mode.getD "top5"
    if !(view_mode == "top5" || view_mode == "usa_only") then
      false
    else
      true

/-- Method `is_cycle_complete` (lines 469 to 470).  The body is
`return False` and reads no state at all, so it is embedded as a
constant. -/
def is_cycle_complete : Bool := false

/-- Method `supports_dynamic_duration` (lines 466 to 467): constantly
`True`; the ticker reports its duration through the scroll helper
instead of signalling cycle completion. -/
def supports_dynamic_duration : Bool := true

/-- Image modelled by its pixel dimensions; pixel contents are
irrelevant to every verified claim. -/
structure Img where
  width : Nat
  height : Nat
deriving DecidableEq, Repr

/-- Flag cache `self._flag_cache`: a finite map from upper cased
country code to `Optional[Image]`, where the stored `none` is the
permanent failure sentinel.  Modelled as an association list with the
usual first match lookup; a Python dict insertion of a fresh key is a
cons here. -/
abbrev FlagCache := List (String × Option Img)

/-- HTTP layer for flag downloads: given a URL, either a decoded image
or `none` standing for any `requests` or PIL exception (timeouts, bad
status, decode failures). -/
structure Net where
  fetch_image : String → Option Img

/-- Method `_get_flag` (lines 165 to 198).  Returns the flag for the
country, the cache after the call, and whether a download was
attempted.  Empty code: return `none` without caching.  Cache hit:
return the stored entry unchanged.  Missing `flag_url`: cache `none`.
Otherwise download once; on success cache the image resized to
`FLAG_WIDTH x FLAG_HEIGHT`, on failure cache the `none` sentinel. -/
def get_flag (net : Net) (cache : FlagCache) (country : Country) :
    Option Img × FlagCache × Bool :=
  let code := upper country.id
  if code == "" then
    (none, cache, false)
  else
    match cache.lookup code with
    | some entry => (entry, cache, false)
    | none =>
      if country.flag_url == "" then
        (none, (code, none) :: cache, false)
      else
        match net.fetch_image country.flag_url with
        | some _ =>
          let resized : Img := ⟨FLAG_WIDTH, FLAG_HEIGHT⟩
          (some resized, (code, some resized) :: cache, true)
        | none => (none, (code, none) :: cache, true)

/-- Caches owned by the plugin at cleanup time: the flag cache and the
scroll helper strip cache. -/
structure CleanupState where
  flag_cache : FlagCache
  scroll_strip : Option Img
deriving DecidableEq, Repr

/-- Method `cleanup` (lines 526 to 529): calls
`self.scroll_helper.clear_cache()` and the base cleanup; the flag
cache is not touched. -/
def cleanup (s : CleanupState) : CleanupState :=
  { s with scroll_strip := none }

/-- Scroll helper state visible to `display`: the attributes
`scroll_position`, `display_width`, `scroll_complete` and
`total_distance_scrolled` that the method reads or writes. -/
structure ScrollState where
  scroll_position : ℚ
  display_width : ℚ
  scroll_complete : Bool
  total_distance_scrolled : ℚ
deriving DecidableEq, Repr

/-- Render facing state of the plugin during `display`: the
`needs_initial_render` flag, the scroll helper state, the display
manager image buffer (dimensions only, `none` when absent), the matrix
dimensions, and the log lines emitted so far. -/
structure RenderState where
  needs_initial_render : Bool
  scroll : ScrollState
  dm_image : Option Img
  width : Nat
  height : Nat
  log : List String
deriving DecidableEq, Repr

/-- Host operations invoked by `display`, each of which may raise: the
display manager `clear` and `update_display`, and the scroll helper
`update_scroll_position` and `get_visible_portion`.  An `Except.error`
models a Python exception escaping the call. -/
structure HostEnv where
  clear : Except String Unit
  update_scroll_position : ScrollState → Except String ScrollState
  get_visible_portion : ScrollState → Except String (Option Img)
  update_display : Except String Unit

/-- Body of method `display` (lines 402 to 461), the code inside the
`try`.  An error carries the state reached when the exception was
raised, so the mutations already performed persist, matching Python
semantics.  Control flow, in source order: optional `clear`; early
return while `needs_initial_render`; advance the scroll and detect
wrap around (`old_pos - new_pos > display_width`), resetting
`scroll_complete` and `total_distance_scrolled` on wrap; fetch the
visible window, returning when it is `None`; re-create the display
buffer when absent or of the wrong size; paste the visible window
(resized if needed, leaving the buffer dimensions unchanged); push the
frame with `update_display`. -/
def display_body (env : HostEnv) (force_clear : Bool) (s0 : RenderState) :
    Except (String × RenderState) RenderState :=
  let cleared : Except (String × RenderState) Unit :=
    if force_clear then
      match env.clear with
      | .ok _ => .ok ()
      | .error e => .error (e, s0)
    else .ok ()
  match cleared with
  | .error es => .error es
  | .ok _ =>
    if s0.needs_initial_render then .ok s0
    else
      let old_pos := s0.scroll.scroll_position
      match env.update_scroll_position s0.scroll with
      | .error e => .error (e, s0)
      | .ok scroll1 =>
        let new_pos := scroll1.scroll_position
        let wrapped := decide (scroll1.display_width < old_pos - new_pos)
        let scroll2 :=
          if wrapped then
            { scroll1 with scroll_complete := false,
                           total_distance_scrolled := 0 }
          else scroll1
        let s1 := { s0 with scroll := scroll2 }
        match env.get_visible_portion scroll2 with
        | .error e => .error (e, s1)
        | .ok none => .ok s1
        | .ok (some _) =>
          let buffer : Img :=
            match s1.dm_image with
            | some img =>
              if img = ⟨s1.width, s1.height⟩ then img else ⟨s1.width, s1.height⟩
            | none => ⟨s1.width, s1.height⟩
          let s2 := { s1 with dm_image := some buffer }
          match env.update_display with
          | .error e => .error (e, s2)
          | .ok _ => .ok s2

/-- Method `display` as the host observes it: the body wrapped in the
top level `try ... except Exception` that logs
`"Error displaying medal count"` and returns normally.  An
`Except.error` in the result type would be an exception escaping to
the host display loop. -/
def display (env : HostEnv) (force_clear : Bool) (s : RenderState) :
    Except String RenderState :=
  match display_body env force_clear s with
  | .ok s1 => .ok s1
  | .error (e, s1) =>
    .ok { s1 with log := s1.log ++ ["Error displaying medal count: " ++ e] }

/-- Ordering claimed for fetched lists: earlier records have strictly
more gold, or equal gold and at least as many total medals. -/
def medalOrder (a b : Country) : Prop :=
  b.gold_medals < a.gold_medals ∨
    (a.gold_medals = b.gold_medals ∧ b.total_medals ≤ a.total_medals)

/-!
Theorems.  Each claim of the specification is settled below; helper
lemmas shared between claims come first.
-/

theorem medalKeyGE_eq_true_iff (a b : Country) :
    medalKeyGE a b = true ↔ medalOrder a b := by
  simp [medalKeyGE, medalOrder]

theorem medalKeyGE_trans : ∀ a b c : Country,
    medalKeyGE a b → medalKeyGE b c → medalKeyGE a c := by
  intro a b c hab hbc
  simp only [medalKeyGE_eq_true_iff, medalOrder] at hab hbc ⊢
  omega

theorem medalKeyGE_total : ∀ a b : Country,
    medalKeyGE a b || medalKeyGE b a := by
  intro a b
  simp only [Bool.or_eq_true, medalKeyGE_eq_true_iff, medalOrder]
  omega

theorem sortByMedals_pairwise (l : List Country) :
    (sortByMedals l).Pairwise medalOrder := by
  have h := List.sorted_mergeSort medalKeyGE_trans medalKeyGE_total l
  exact h.imp (fun hab => (medalKeyGE_eq_true_iff _ _).1 hab)

theorem sortByMedals_perm (l : List Country) :
    List.Perm (sortByMedals l) l :=
  List.mergeSort_perm l medalKeyGE

theorem sortByMedals_length (l : List Country) :
    (sortByMedals l).length = l.length :=
  (sortByMedals_perm l).length_eq

/-- C1: for every input list of country records (and any view mode and
top N), the list returned by `fetch_data` is sorted by `gold_medals`
descending, with ties broken by `total_medals` descending. -/
theorem fetch_data_sorted (view_mode : String) (top_n : Nat)
    (source : List Country) :
    (fetch_data view_mode top_n source).Pairwise medalOrder := by
  unfold fetch_data
  by_cases h : view_mode == "usa_only"
  · simpa [h] using sortByMedals_pairwise source
  · simpa [h] using
      (sortByMedals_pairwise source).sublist (List.take_sublist _ _)

/-- C2 counterexample: at view mode `usa_only`, `top_n = 5` and an
empty host cache, a successful fetch neither persists its result to
the host cache (the cache stays empty) nor truncates to top N (all ten
placeholder records are returned). -/
theorem fetch_data_system_cex :
    ¬ ((fetch_data_system "usa_only" 5 ⟨none⟩).2.medalData =
         some (fetch_data_system "usa_only" 5 ⟨none⟩).1 ∧
       (fetch_data_system "usa_only" 5 ⟨none⟩).1.length ≤ 5) := by
  rintro ⟨h1, _⟩
  simp [fetch_data_system] at h1

/-- C2 amended: `fetch_data` never raises to the caller (it is a total
function with no error outcome); it returns data sorted by
`(gold_medals desc, total_medals desc)` and, when the view mode is not
`usa_only`, truncated to at most `top_n` records; in `usa_only` mode
it returns the whole dataset; and it leaves the host cache untouched —
no cache persistence, no network request, hence no timeout, connection
or HTTP error path, is implemented in this version. -/
theorem fetch_data_system_spec (view_mode : String) (top_n : Nat)
    (cache : HostCache) :
    (fetch_data_system view_mode top_n cache).2 = cache ∧
    ((fetch_data_system view_mode top_n cache).1).Pairwise medalOrder ∧
    (view_mode ≠ "usa_only" →
      (fetch_data_system view_mode top_n cache).1.length ≤ top_n) ∧
    (view_mode = "usa_only" →
      List.Perm (fetch_data_system view_mode top_n cache).1
        PLACEHOLDER_COUNTRIES) := by
  refine ⟨rfl, ?_, ?_, ?_⟩
  · show (fetch_data view_mode top_n PLACEHOLDER_COUNTRIES).Pairwise medalOrder
    unfold fetch_data
    by_cases h : view_mode == "usa_only"
    · simpa [h] using sortByMedals_pairwise PLACEHOLDER_COUNTRIES
    · simpa [h] using
        (sortByMedals_pairwise PLACEHOLDER_COUNTRIES).sublist
          (List.take_sublist _ _)
  · intro h
    show (fetch_data view_mode top_n PLACEHOLDER_COUNTRIES).length ≤ top_n
    simp only [fetch_data, beq_iff_eq, if_neg h]
    exact List.length_take_le _ _
  · intro h
    show List.Perm (fetch_data view_mode top_n PLACEHOLDER_COUNTRIES) _
    simp only [fetch_data, beq_iff_eq, if_pos h]
    exact sortByMedals_perm PLACEHOLDER_COUNTRIES

/-- C2 witness: at view mode `top5`, the amended theorem yields an
unchanged cache and a result of at most five records. -/
theorem fetch_data_system_spec_witness :
    (fetch_data_system "top5" 5 ⟨none⟩).2 = ⟨none⟩ ∧
    (fetch_data_system "top5" 5 ⟨none⟩).1.length ≤ 5 :=
  ⟨(fetch_data_system_spec "top5" 5 ⟨none⟩).1,
   (fetch_data_system_spec "top5" 5 ⟨none⟩).2.2.1 (by decide)⟩

/-- C3 counterexample: in `usa_only` mode with `top_n = 5`, a
successful fetch returns all ten placeholder records, more than
`top_n`. -/
theorem fetch_data_truncation_cex :
    ¬ ((fetch_data "usa_only" 5 PLACEHOLDER_COUNTRIES).length ≤ 5) := by
  have h : fetch_data "usa_only" 5 PLACEHOLDER_COUNTRIES =
      sortByMedals PLACEHOLDER_COUNTRIES := by
    simp [fetch_data]
  have h10 : (fetch_data "usa_only" 5 PLACEHOLDER_COUNTRIES).length = 10 := by
    rw [h, sortByMedals_length]
    rfl
  omega

/-- C3 amended: for every successful fetch whose view mode is not
`usa_only`, the list returned by `fetch_data` contains at most `top_n`
records; in `usa_only` mode the full sorted dataset is kept so that
USA can be found regardless of rank. -/
theorem fetch_data_truncates (view_mode : String) (top_n : Nat)
    (source : List Country) (h : view_mode ≠ "usa_only") :
    (fetch_data view_mode top_n source).length ≤ top_n := by
  simp only [fetch_data, beq_iff_eq, if_neg h]
  exact List.length_take_le _ _

/-- C3 witness: in `top5` mode with `top_n = 5`, the fetched list has
at most five records. -/
theorem fetch_data_truncates_witness :
    (fetch_data "top5" 5 PLACEHOLDER_COUNTRIES).length ≤ 5 :=
  fetch_data_truncates "top5" 5 PLACEHOLDER_COUNTRIES (by decide)

/-- C7 counterexample: `is_cycle_complete` never returns `True`; its
body is `return False` independent of any plugin state. -/
theorem is_cycle_complete_cex : ¬ (is_cycle_complete = true) := by
  decide

/-- C7 amended: the ticker variant implements the cycle completion
hook but never signals completion — `is_cycle_complete` always returns
`False` (the continuous scroll is managed internally); the variant
instead reports `supports_dynamic_duration = True` and exposes its
duration to the host scheduler through the scroll helper. -/
theorem ticker_cycle_signalling :
    is_cycle_complete = false ∧ supports_dynamic_duration = true :=
  ⟨rfl, rfl⟩

/-- C8: for every host environment (whose operations may raise), every
`force_clear` argument and every render state, `display` returns
normally — never an error — and when the body raised, the returned
state is the state reached at the raise point with the error logged. -/
theorem display_never_raises (env : HostEnv) (force_clear : Bool)
    (s : RenderState) :
    ∃ s1, display env force_clear s = Except.ok s1 ∧
      (display_body env force_clear s = Except.ok s1 ∨
       ∃ e s2, display_body env force_clear s = Except.error (e, s2) ∧
         s1 = { s2 with
                  log := s2.log ++ ["Error displaying medal count: " ++ e] }) := by
  cases hb : display_body env force_clear s with
  | ok s1 =>
    exact ⟨s1, by simp [display, hb], Or.inl rfl⟩
  | error es =>
    obtain ⟨e, s2⟩ := es
    exact ⟨_, by simp [display, hb], Or.inr ⟨e, s2, rfl, rfl⟩⟩

theorem fetch_data_default_length :
    (fetch_data "top5" 5 PLACEHOLDER_COUNTRIES).length = 5 := by
  have hb : ("top5" == "usa_only") = false := by decide
  have h : fetch_data "top5" 5 PLACEHOLDER_COUNTRIES
      = (sortByMedals PLACEHOLDER_COUNTRIES).take 5 := by
    simp [fetch_data, hb]
  have hlen : (sortByMedals PLACEHOLDER_COUNTRIES).length = 10 := by
    rw [sortByMedals_length]
    rfl
  rw [h, List.length_take, hlen]
  norm_num

theorem fetch_data_default_ne_nil :
    fetch_data "top5" 5 PLACEHOLDER_COUNTRIES ≠ [] := by
  intro hnil
  have h5 := fetch_data_default_length
  rw [hnil] at h5
  simp at h5

theorem update_no_fetch (now : ℚ) (s : PluginState)
    (h : ¬ (s.update_interval ≤ now - s.last_fetch_time ∨ s.countries = [])) :
    update now s = (s, false) := by
  simp [update, h]

theorem update_fetch_state (now : ℚ) (s : PluginState)
    (h : s.update_interval ≤ now - s.last_fetch_time ∨ s.countries = []) :
    update now s =
      ({ s with
          countries := fetch_data s.view_mode s.top_n PLACEHOLDER_COUNTRIES,
          last_fetch_time := now,
          needs_initial_render := false }, true) := by
  simp [update, h]

/-- C4 counterexample: with `top_n = 0` in `top5` mode
(`update_interval = 300`), the first `update` at time 10 performs a
fetch — so data has been loaded — and stores an empty countries list;
a second `update` at time 20, well within the interval, performs a
second fetch even though the claim then forbids one. -/
theorem update_refetch_cex :
    (update 10 (initState "top5" 0 300)).2 = true ∧
    (update 10 (initState "top5" 0 300)).1.last_fetch_time = 10 ∧
    ¬ ((300 : ℚ) ≤ 20 - 10) ∧
    (update 20 (update 10 (initState "top5" 0 300)).1).2 = true := by
  have hb : ("top5" == "usa_only") = false := by decide
  have hs1 : (update 10 (initState "top5" 0 300)).1 =
      ⟨"top5", 0, 300, [], 10, false⟩ := by
    simp [update, initState, fetch_data, hb]
  refine ⟨?_, ?_, ?_, ?_⟩
  · simp [update, initState]
  · rw [hs1]
  · norm_num
  · rw [hs1]
    simp [update]

/-- C4 amended: a call to `update` performs a fetch if and only if the
elapsed time since the last fetch is at least `update_interval` or the
countries list is currently empty; when no fetch happens the whole
state is unchanged, and a second call within the interval after a
fetch that produced a nonempty list performs no fetch and changes
nothing. -/
theorem update_fetch_iff (now : ℚ) (s : PluginState) :
    ((update now s).2 = true ↔
      (s.update_interval ≤ now - s.last_fetch_time ∨ s.countries = [])) ∧
    ((update now s).2 = false → (update now s).1 = s) ∧
    (∀ now2 : ℚ, (update now s).2 = true →
      (update now s).1.countries ≠ [] →
      ¬ (s.update_interval ≤ now2 - now) →
      update now2 (update now s).1 = ((update now s).1, false)) := by
  by_cases h : s.update_interval ≤ now - s.last_fetch_time ∨ s.countries = []
  · rw [update_fetch_state now s h]
    refine ⟨by simpa using h, by simp, ?_⟩
    intro now2 _ hne hlt
    apply update_no_fetch
    rintro (hle | hnil)
    · exact hlt hle
    · exact hne hnil
  · rw [update_no_fetch now s h]
    refine ⟨by simpa using h, fun _ => rfl, ?_⟩
    intro now2 hfetch _ _
    simp at hfetch

/-- C4 witness: with the default configuration, an `update` at time
1000 fetches (the list is initially empty) and a second `update` at
time 1100, within the 300 second interval, performs no fetch and
leaves the state unchanged. -/
theorem update_fetch_iff_witness :
    update 1100 (update 1000 (initState "top5" 5 300)).1 =
      ((update 1000 (initState "top5" 5 300)).1, false) :=
  (update_fetch_iff 1000 (initState "top5" 5 300)).2.2 1100
    (by simp [update, initState])
    (by
      have hc : (update 1000 (initState "top5" 5 300)).1.countries =
          fetch_data "top5" 5 PLACEHOLDER_COUNTRIES := by
        simp [update, initState]
      rw [hc]
      exact fetch_data_default_ne_nil)
    (by norm_num [initState])

/-- C5: in `usa_only` mode the selection for rendering has at most one
record, every selected record is a USA record taken from the countries
list, the selection is empty exactly when no USA record exists, and a
USA record anywhere in the list — in particular outside the top N — is
found, since the lookup scans the whole list. -/
theorem get_countries_for_view_usa_only (top_n : Nat)
    (countries : List Country) :
    (get_countries_for_view "usa_only" top_n countries).length ≤ 1 ∧
    (∀ c ∈ get_countries_for_view "usa_only" top_n countries,
      upper c.id = "USA" ∧ c ∈ countries) ∧
    ((∀ c ∈ countries, upper c.id ≠ "USA") →
      get_countries_for_view "usa_only" top_n countries = []) ∧
    (∀ c ∈ countries, upper c.id = "USA" →
      (get_countries_for_view "usa_only" top_n countries).length = 1) := by
  have hview : get_countries_for_view "usa_only" top_n countries =
      match countries.find? (fun c => upper c.id == "USA") with
      | some c => [c]
      | none => [] := by
    simp [get_countries_for_view]
  cases hf : countries.find? (fun c => upper c.id == "USA") with
  | none =>
    rw [hview, hf]
    refine ⟨by simp, by simp, fun _ => rfl, ?_⟩
    intro c hc husa
    have hnone := List.find?_eq_none.mp hf c hc
    simp [husa] at hnone
  | some c0 =>
    rw [hview, hf]
    refine ⟨by simp, ?_, ?_, ?_⟩
    · intro c hc
      have hc0 : c = c0 := by simpa using hc
      subst hc0
      refine ⟨?_, List.mem_of_find?_eq_some hf⟩
      have := List.find?_some hf
      simpa using this
    · intro hall
      have husa : upper c0.id = "USA" := by
        have := List.find?_some hf
        simpa using this
      exact absurd husa (hall c0 (List.mem_of_find?_eq_some hf))
    · intro c _ _
      rfl

/-- C5 witness: with `top_n = 1` and the placeholder data, where USA
is ranked outside the top 1, the `usa_only` selection still finds
exactly one record. -/
theorem get_countries_for_view_usa_only_witness :
    (get_countries_for_view "usa_only" 1 PLACEHOLDER_COUNTRIES).length = 1 :=
  (get_countries_for_view_usa_only 1 PLACEHOLDER_COUNTRIES).2.2.2
    ⟨"USA", "United States", 0, 0, 0, 0, "https://flagcdn.com/w80/us.png"⟩
    (by decide) (by decide)

/-- C6: whenever the base class validation passes, `validate_config`
returns `False` for every `view_mode` outside `top5` and `usa_only`;
for the two enumerated modes (or an absent key, which defaults to
`top5`) it does not reject on that ground and returns the base
verdict. -/
theorem validate_config_view_mode (base_ok : Bool) (cfg : Config) :
    (cfg.view_mode.getD "top5" ≠ "top5" →
     cfg.view_mode.getD "top5" ≠ "usa_only" →
      validate_config base_ok cfg = false) ∧
    (cfg.view_mode.getD "top5" = "top5" ∨
     cfg.view_mode.getD "top5" = "usa_only" →
      validate_config base_ok cfg = base_ok) := by
  cases base_ok with
  | false =>
    refine ⟨fun _ _ => ?_, fun _ => ?_⟩ <;> simp [validate_config]
  | true =>
    constructor
    · intro h1 h2
      have hb : ((cfg.view_mode.getD "top5" == "top5") ||
          (cfg.view_mode.getD "top5" == "usa_only")) = false := by
        simp [h1, h2]
      simp [validate_config, hb]
    · intro h
      have hb : ((cfg.view_mode.getD "top5" == "top5") ||
          (cfg.view_mode.getD "top5" == "usa_only")) = true := by
        rcases h with h | h <;> simp [h]
      simp [validate_config, hb]

/-- C6 witness: with a passing base validation, the view mode `both`
is rejected. -/
theorem validate_config_view_mode_witness :
    validate_config true ⟨some "both", none, none⟩ = false :=
  (validate_config_view_mode true ⟨some "both", none, none⟩).1
    (by decide) (by decide)

theorem lookup_cons_ne {k code : String} {x : Option Img}
    (cache : FlagCache) (h : k ≠ code) :
    ((code, x) :: cache).lookup k = cache.lookup k := by
  have hb : (k == code) = false := by
    simpa using h
  simp [List.lookup, hb]

/-- C9: a cache hit for a country code (every code ever stored by
`_get_flag` is nonempty) returns the stored entry — image or `None`
sentinel — unchanged and attempts no download; no call of `_get_flag`
ever evicts or overwrites an existing entry; and `cleanup` clears only
the scroll helper cache, leaving the flag cache intact for the plugin
lifetime. -/
theorem get_flag_cache_stable (net : Net) (cache : FlagCache)
    (country : Country) :
    (∀ entry, upper country.id ≠ "" →
      cache.lookup (upper country.id) = some entry →
      get_flag net cache country = (entry, cache, false)) ∧
    (∀ k v, cache.lookup k = some v →
      ((get_flag net cache country).2.1).lookup k = some v) ∧
    (∀ s : CleanupState, (cleanup s).flag_cache = s.flag_cache) := by
  refine ⟨?_, ?_, fun s => rfl⟩
  · intro entry hne hl
    have hb : (upper country.id == "") = false := by
      simpa using hne
    simp [get_flag, hb, hl]
  · intro k v hkv
    by_cases h0 : (upper country.id == "") = true
    · simp [get_flag, h0, hkv]
    · have hb : (upper country.id == "") = false := by
        simpa using h0
      cases hl : cache.lookup (upper country.id) with
      | some e =>
        simp [get_flag, hb, hl, hkv]
      | none =>
        have hk : k ≠ upper country.id := by
          intro he
          rw [he, hl] at hkv
          cases hkv
        have hcons : ∀ x : Option Img,
            ((upper country.id, x) :: cache).lookup k = some v := by
          intro x
          rw [lookup_cons_ne cache hk]
          exact hkv
        by_cases hurl : (country.flag_url == "") = true
        · simp [get_flag, hb, hl, hurl, hcons]
        · have hub : (country.flag_url == "") = false := by
            simpa using hurl
          cases hn : net.fetch_image country.flag_url with
          | some img => simp [get_flag, hb, hl, hub, hn, hcons]
          | none => simp [get_flag, hb, hl, hub, hn, hcons]

/-- C9 witness: with `USA` already cached (as a 36 by 24 image), a
further call returns the stored image, leaves the cache unchanged and
performs no download. -/
theorem get_flag_cache_stable_witness :
    get_flag ⟨fun _ => none⟩ [("USA", some ⟨36, 24⟩)]
        ⟨"USA", "United States", 0, 0, 0, 0,
          "https://flagcdn.com/w80/us.png"⟩ =
      (some ⟨36, 24⟩, [("USA", some ⟨36, 24⟩)], false) :=
  (get_flag_cache_stable ⟨fun _ => none⟩ [("USA", some ⟨36, 24⟩)]
      ⟨"USA", "United States", 0, 0, 0, 0,
        "https://flagcdn.com/w80/us.png"⟩).1
    (some ⟨36, 24⟩) (by decide) (by decide)

/-- C10: after any `on_config_change`, `last_fetch_time` is `0.0`, so
as soon as the wall clock is at least the configured interval — always
the case for real timestamps — the next `update` fetches and
re-renders regardless of how recently the previous fetch occurred. -/
theorem on_config_change_resets_fetch_time (cfg : Config)
    (s : PluginState) :
    (on_config_change cfg s).last_fetch_time = 0 ∧
    (∀ now : ℚ, (on_config_change cfg s).update_interval ≤ now →
      ((update now (on_config_change cfg s)).2 = true ∧
       (update now (on_config_change cfg s)).1.needs_initial_render = false ∧
       (update now (on_config_change cfg s)).1.countries =
         fetch_data (cfg.view_mode.getD "top5") (cfg.top_n_countries.getD 5)
           PLACEHOLDER_COUNTRIES)) := by
  refine ⟨rfl, ?_⟩
  intro now hnow
  have hcond : (on_config_change cfg s).update_interval ≤
      now - (on_config_change cfg s).last_fetch_time ∨
      (on_config_change cfg s).countries = [] := by
    left
    show (on_config_change cfg s).update_interval ≤ now - 0
    simpa using hnow
  rw [update_fetch_state now (on_config_change cfg s) hcond]
  exact ⟨rfl, rfl, rfl⟩

/-- C10 witness: a plugin whose previous fetch was recent (time 5000)
refetches at time 1000000 right after a config change. -/
theorem on_config_change_resets_fetch_time_witness :
    (update 1000000 (on_config_change ⟨none, none, none⟩
        ⟨"top5", 5, 300, [], 5000, false⟩)).2 = true :=
  ((on_config_change_resets_fetch_time ⟨none, none, none⟩
      ⟨"top5", 5, 300, [], 5000, false⟩).2 1000000
    (by norm_num [on_config_change])).1

end MedalCount
